import Mathlib

/-!
Verification development for the `n8n-nodes-minimemory` in-process vector +
keyword search engine.  The definitions below are a shallow embedding of the
TypeScript sources under `src/nodes/Minimemory/` (`VectorDB.ts`,
`BM25Index.ts`, `TextUtils.ts`, `HybridSearch.ts`).  JavaScript numbers that
only flow through structural code (JSON metadata, counters) are modelled as
`ℚ`/`ℕ`/`ℤ`; vector components and scores, which pass through `Math.sqrt`
and `Math.log`, are modelled as `ℝ`.  JavaScript `Map`s are modelled as
association lists in insertion order, matching `Map`'s specified iteration
order.  `undefined` is modelled as `Option.none`.
-/

namespace Minimemory

/-! ## JSON-like metadata values

Models the `Record<string, unknown>` metadata payloads: a tagged union of the
JSON-representable values (`Date` objects cannot occur in data that came from
JSON parameters, so there is no `Date` variant). -/

inductive JValue : Type where
  | null : JValue
  | bool : Bool → JValue
  | num : ℚ → JValue
  | str : String → JValue
  | arr : List JValue → JValue
  | obj : List (String × JValue) → JValue
deriving Repr

/-- A metadata object (`Record<string, unknown>`), keys in insertion order. -/
def Metadata : Type := List (String × JValue)

/-! ## Character-level string primitives

The JavaScript string operations the engine uses (`split`, `trim`,
`toLowerCase`, `startsWith`, …) are modelled by structural recursion over the
character list of a `String`, so that they compute by kernel reduction. -/

/-- `s.split('.')` accumulator: splits at every separator, keeping empty
pieces (JavaScript single-character `split` semantics). -/
def splitCharAux (sep : Char) (acc : List Char) : List Char → List (List Char)
  | [] => [acc.reverse]
  | c :: cs =>
    if c = sep then acc.reverse :: splitCharAux sep [] cs
    else splitCharAux sep (c :: acc) cs

/-- `path.split('.')`. -/
def jsSplitDot (s : String) : List String :=
  (splitCharAux '.' [] s.data).map String.mk

/-- `split(/\s+/)` followed by the non-empty filter: maximal non-whitespace
runs. -/
def splitWsAux (acc : List Char) : List Char → List (List Char)
  | [] => if acc.isEmpty then [] else [acc.reverse]
  | c :: cs =>
    if c.isWhitespace then
      if acc.isEmpty then splitWsAux [] cs
      else acc.reverse :: splitWsAux [] cs
    else splitWsAux (c :: acc) cs

/-- `toLowerCase()` (on the ASCII range the engine exercises). -/
def jsToLowerStr (s : String) : String := String.mk (s.data.map Char.toLower)

/-- `a.startsWith(b)`. -/
def strStartsWithJS (s pre : String) : Bool := pre.data.isPrefixOf s.data

/-- `a.endsWith(b)`. -/
def strEndsWithJS (s suf : String) : Bool := suf.data.isSuffixOf s.data

/-- Occurrence of `pat` as a contiguous subsequence of `hay`
(`String.prototype.includes` for non-empty `pat`). -/
def containsSeq (hay pat : List Char) : Bool :=
  match hay with
  | [] => pat.isEmpty
  | _ :: rest => pat.isPrefixOf hay || containsSeq rest pat

/-- `trim()`: strip leading and trailing whitespace. -/
def jsTrim (s : String) : String :=
  String.mk
    (((s.data.dropWhile Char.isWhitespace).reverse.dropWhile
      Char.isWhitespace).reverse)

/-- `Array.prototype.join` / `parts.join(sep)`. -/
def sjoin (sep : String) : List String → String
  | [] => ""
  | [x] => x
  | x :: xs => x ++ sep ++ sjoin sep xs

/-- The numeric value of a canonical decimal digit string. -/
def digitsToNat (cs : List Char) : ℕ :=
  cs.foldl (fun n c => 10 * n + (c.toNat - '0'.toNat)) 0

/-! ## JavaScript `Map` / object primitives (insertion-ordered assoc lists) -/

/-- `map.get(k)` / `obj[k]`: first binding of the key, `undefined` if absent. -/
def mapGet {α : Type} (m : List (String × α)) (k : String) : Option α :=
  (m.find? (fun e => e.1 = k)).map (fun e => e.2)

/-- `map.set(k, v)`: replaces the value in place if the key is present
(JavaScript `Map.set` keeps the original insertion position), otherwise
appends the new binding. -/
def mapSet {α : Type} (m : List (String × α)) (k : String) (v : α) :
    List (String × α) :=
  if m.any (fun e => e.1 = k) then
    m.map (fun e => if e.1 = k then (k, v) else e)
  else
    m ++ [(k, v)]

/-- `map.delete(k)`: removes every binding of the key (there is at most one). -/
def mapDelete {α : Type} (m : List (String × α)) (k : String) :
    List (String × α) :=
  m.filter (fun e => ¬ e.1 = k)

/-! ## Host-provided behaviour

`Date.parse`, `String.prototype.localeCompare` and number-to-string
formatting are host/ICU functionality the engine calls into; they are
parameters of the embedding rather than definitions translated from it. -/

structure JsEnv : Type where
  /-- `Date.parse s`: millisecond timestamp, `none` models `NaN`. -/
  dateParse : String → Option ℤ
  /-- `a.localeCompare b`: negative / zero / positive. -/
  localeCompare : String → String → ℤ
  /-- `String(n)` for a number `n`. -/
  numToString : ℚ → String

/-- A trivial environment used for concrete evaluation: no string parses as a
date. -/
def env0 : JsEnv :=
  { dateParse := fun _ => none
    localeCompare := fun _ _ => 0
    numToString := fun _ => "" }

mutual

/-- JavaScript `String(v)` coercion of a metadata value. -/
def jsToString (env : JsEnv) : JValue → String
  | .null => "null"
  | .bool true => "true"
  | .bool false => "false"
  | .num q => env.numToString q
  | .str s => s
  | .arr xs => sjoin "," (jsToStringElems env xs)
  | .obj _ => "[object Object]"

/-- Elements of `Array.prototype.toString`: `null` renders as the empty
string, everything else via `String(v)`. -/
def jsToStringElems (env : JsEnv) : List JValue → List String
  | [] => []
  | .null :: vs => "" :: jsToStringElems env vs
  | v :: vs => jsToString env v :: jsToStringElems env vs

end

/-- `compareValues` (VectorDB.ts): ordering used by `$gt`/`$gte`/`$lt`/`$lte`.
Strings are first tried as dates, then compared via `localeCompare`; numbers
compare numerically; anything else falls back to comparing string coercions.
(The `instanceof Date` branch is unreachable for JSON-derived values.) -/
def compareValues (env : JsEnv) (a b : JValue) : ℚ :=
  match a, b with
  | .str sa, .str sb =>
    match env.dateParse sa, env.dateParse sb with
    | some da, some db => ((da - db : ℤ) : ℚ)
    | _, _ => ((env.localeCompare sa sb : ℤ) : ℚ)
  | .num x, .num y => x - y
  | a, b => ((env.localeCompare (jsToString env a) (jsToString env b) : ℤ) : ℚ)

/-- JavaScript strict equality `===` on metadata/filter values.  Primitives
compare by value; arrays and objects compare by reference, and a filter
operand and a metadata value are always distinct objects, so any comparison
involving an array/object is `false`. -/
def jsStrictEq : JValue → JValue → Bool
  | .null, .null => true
  | .bool a, .bool b => a == b
  | .num a, .num b => a == b
  | .str a, .str b => a == b
  | _, _ => false

/-- `fieldValue === condition` where the field value may be `undefined`
(`none`); a filter operand is never `undefined`, so `undefined` on the left
never matches. -/
def jsOptEq (fv : Option JValue) (v : JValue) : Bool :=
  match fv with
  | some x => jsStrictEq x v
  | none => false

/-! ## Dot-path lookup (`getNestedValue`, VectorDB.ts) -/

/-- Canonical array index: `arr["3"]` hits an element, `arr["03"]` does not. -/
def parseIndex? (s : String) : Option ℕ :=
  if s.length > 0 && s.data.all Char.isDigit &&
      (s == "0" || !strStartsWithJS s "0") then
    some (digitsToNat s.data)
  else
    none

/-- Bracket access on a JavaScript array with a string key: canonical numeric
keys hit elements, `"length"` yields the length, anything else is
`undefined`. -/
def jsArrGet (xs : List JValue) (part : String) : Option JValue :=
  match parseIndex? part with
  | some i => xs.get? i
  | none => if part = "length" then some (.num (xs.length : ℚ)) else none

/-- One step of the dot-path walk: `current[part]` after the source's
`null`/`undefined` and `typeof current !== 'object'` guards. -/
def nestedStep (current : Option JValue) (part : String) : Option JValue :=
  match current with
  | none => none
  | some .null => none
  | some (.obj fields) => mapGet fields part
  | some (.arr xs) => jsArrGet xs part
  | some _ => none

/-- `getNestedValue(obj, path)`: dot-path lookup, `undefined` when the
metadata is `null` or any intermediate segment is not an object. -/
def getNestedValue (metadata : Option Metadata) (path : String) :
    Option JValue :=
  match metadata with
  | none => none
  | some m => (jsSplitDot path).foldl nestedStep (some (.obj m))

/-! ## Filter conditions (`isFilterCondition`, `evaluateCondition`) -/

/-- `isFilterCondition`: a non-null object whose keys are all `$`-prefixed and
non-empty.  Arrays have numeric keys, so they never qualify. -/
def isFilterCondition : JValue → Bool
  | .obj entries =>
    !entries.isEmpty && entries.all (fun e => strStartsWithJS e.1 "$")
  | _ => false

/-- The operator entries of a condition object. -/
def condEntries : JValue → List (String × JValue)
  | .obj entries => entries
  | _ => []

/-- Case-insensitive substring test (`$contains`). -/
def strContainsCI (hay pat : String) : Bool :=
  let h := jsToLowerStr hay
  let p := jsToLowerStr pat
  if p = "" then true else containsSeq h.data p.data

/-- One operator of a condition object (`evaluateCondition`'s `switch`).
Unknown operators are ignored (evaluate to pass). -/
def evalOp (env : JsEnv) (fv : Option JValue) (op : String) (operand : JValue) :
    Bool :=
  match op with
  | "$eq" => jsOptEq fv operand
  | "$ne" => !(jsOptEq fv operand)
  | "$gt" =>
    match fv with
    | none => false
    | some v => decide (0 < compareValues env v operand)
  | "$gte" =>
    match fv with
    | none => false
    | some v => decide (0 ≤ compareValues env v operand)
  | "$lt" =>
    match fv with
    | none => false
    | some v => decide (compareValues env v operand < 0)
  | "$lte" =>
    match fv with
    | none => false
    | some v => decide (compareValues env v operand ≤ 0)
  | "$in" =>
    match operand with
    | .arr xs =>
      match fv with
      | some v => xs.any (fun x => jsStrictEq v x)
      | none => false
    | _ => false
  | "$nin" =>
    match operand with
    | .arr xs =>
      match fv with
      | some v => !xs.any (fun x => jsStrictEq v x)
      | none => true
    | _ => false
  | "$exists" =>
    match operand, fv with
    | .bool true, none => false
    | .bool false, some _ => false
    | _, _ => true
  | "$contains" =>
    match fv, operand with
    | some (.str s), .str o => strContainsCI s o
    | _, _ => false
  | "$startsWith" =>
    match fv, operand with
    | some (.str s), .str o => strStartsWithJS (jsToLowerStr s) (jsToLowerStr o)
    | _, _ => false
  | "$endsWith" =>
    match fv, operand with
    | some (.str s), .str o => strEndsWithJS (jsToLowerStr s) (jsToLowerStr o)
    | _, _ => false
  | _ => true

/-- `evaluateCondition`: all operator keys of the condition object must pass
(implicit AND). -/
def evaluateCondition (env : JsEnv) (fv : Option JValue)
    (entries : List (String × JValue)) : Bool :=
  entries.all (fun e => evalOp env fv e.1 e.2)

/-! ## Filters (`MetadataFilter`, `evaluateFilter`) -/

/-- A metadata filter: the optional `$and` and `$or` entries (presence is
significant — `if (filter.$and)` tests presence since any array is truthy)
plus the remaining field conditions in object-key order. -/
inductive Filter : Type where
  | mk (andL : Option (List Filter)) (orL : Option (List Filter))
      (fields : List (String × JValue)) : Filter

mutual

/-- `evaluateFilter(metadata, filter)`: `$and` requires every sub-filter,
`$or` fails only when it is non-empty and no sub-filter matches (so an empty
`$or` list never fails the filter), and each remaining field entry is an
exact-equality or operator-object condition on the dot-path value. -/
def evaluateFilter (env : JsEnv) (m : Option Metadata) : Filter → Bool
  | .mk andL orL fields =>
    (match andL with
     | some subs => evalAllFilters env m subs
     | none => true) &&
    (match orL with
     | some subs => evalAnyFilter env m subs || subs.isEmpty
     | none => true) &&
    fields.all (fun fc =>
      let fv := getNestedValue m fc.1
      if isFilterCondition fc.2 then
        evaluateCondition env fv (condEntries fc.2)
      else
        jsOptEq fv fc.2)

/-- The `$and` loop: every sub-filter must evaluate true. -/
def evalAllFilters (env : JsEnv) (m : Option Metadata) : List Filter → Bool
  | [] => true
  | f :: fs => evaluateFilter env m f && evalAllFilters env m fs

/-- The `$or` loop: `anyMatch` after scanning the sub-filters. -/
def evalAnyFilter (env : JsEnv) (m : Option Metadata) : List Filter → Bool
  | [] => false
  | f :: fs => evaluateFilter env m f || evalAnyFilter env m fs

end

/-! ## Text utilities (`TextUtils.ts`) -/

/-- `TokenizerOptions`: `none` fields fall back to the defaults inside
`tokenize` (the object-spread merge; an explicitly-`undefined` field behaves
like an absent one in this model). -/
structure TokenizerOptions : Type where
  lowercase : Option Bool := none
  removePunctuation : Option Bool := none
  removeNumbers : Option Bool := none
  minTokenLength : Option ℕ := none
deriving Repr, DecidableEq

/-- The empty options object `{}`. -/
def emptyTokOpts : TokenizerOptions := {}

/-- The `\p{L}\p{N}` word-character class of the punctuation-stripping regex,
restricted to the alphanumeric characters the development exercises. -/
def jsWordChar (c : Char) : Bool := c.isAlphanum

/-- Splits on runs of whitespace (`split(/\s+/)` plus the non-empty filter). -/
def splitWs (cs : List Char) : List String :=
  (splitWsAux [] cs).map String.mk

/-- `tokenize(text, options)`: lowercase, strip punctuation to spaces, split
on whitespace, optionally drop pure-numeral tokens, optionally drop tokens
shorter than `minTokenLength` (the `minTokenLength && minTokenLength > 1`
truthiness test means only values `> 1` have an effect). -/
def tokenize (text : String) (options : TokenizerOptions) : List String :=
  let lower := options.lowercase.getD true
  let removePunct := options.removePunctuation.getD true
  let removeNums := options.removeNumbers.getD false
  let minLen := options.minTokenLength.getD 1
  if text = "" then []
  else
    let processed := if lower then text.data.map Char.toLower else text.data
    let processed :=
      if removePunct then
        processed.map (fun c => if jsWordChar c || c.isWhitespace then c else ' ')
      else processed
    let tokens := splitWs processed
    let tokens :=
      if removeNums then
        tokens.filter (fun t => !(t.length > 0 && t.data.all Char.isDigit))
      else tokens
    if minLen > 1 then tokens.filter (fun t => t.length ≥ minLen) else tokens

/-- `getTermFrequencies(tokens)`: fold the tokens into a term → count map. -/
def getTermFrequencies (tokens : List String) : List (String × ℕ) :=
  tokens.foldl
    (fun m token => mapSet m token (((mapGet m token).getD 0) + 1)) []

/-- `extractTextFromMetadata`: concatenate, in field order, the string value
of each configured field (arrays contribute their string elements), joined by
single spaces. -/
def extractTextFromMetadata (metadata : Option Metadata)
    (textFields : List String) : String :=
  match metadata with
  | none => ""
  | some m =>
    sjoin " "
      ((textFields.map (fun field =>
        match getNestedValue (some m) field with
        | some (.str s) => [s]
        | some (.arr xs) =>
          xs.filterMap (fun v =>
            match v with
            | .str s => some s
            | _ => none)
        | _ => [])).flatten)

/-! ## BM25 index (`BM25Index.ts`) -/

/-- Constructor options for `BM25Index`. -/
structure BM25Options : Type where
  k1 : Option ℝ := none
  b : Option ℝ := none
  textFields : List String
  tokenizerOptions : Option TokenizerOptions := none

/-- Per-document data held by the index. -/
structure DocData : Type where
  length : ℕ
  termFrequencies : List (String × ℕ)
  metadata : Option Metadata := none

/-- The state of a `BM25Index` instance. -/
structure BM25State : Type where
  k1 : ℝ
  b : ℝ
  textFields : List String
  tokenizerOptions : TokenizerOptions
  documents : List (String × DocData)
  documentFrequencies : List (String × ℕ)
  totalDocLength : ℤ

/-- `new BM25Index(options)`: defaults `k1 = 1.2`, `b = 0.75`, empty maps. -/
def BM25State.new (options : BM25Options) : BM25State :=
  { k1 := options.k1.getD 1.2
    b := options.b.getD 0.75
    textFields := options.textFields
    tokenizerOptions := options.tokenizerOptions.getD {}
    documents := []
    documentFrequencies := []
    totalDocLength := 0 }

/-- The document-frequency update loop of `addDocument`: each term's first
occurrence in the token list increments its DF once (`seenTerms` set). -/
def bumpDFsAux (dfs : List (String × ℕ)) (seen : List String) :
    List String → List (String × ℕ)
  | [] => dfs
  | t :: ts =>
    if seen.contains t then bumpDFsAux dfs seen ts
    else bumpDFsAux (mapSet dfs t (((mapGet dfs t).getD 0) + 1)) (t :: seen) ts

/-- `removeDocument(id)`: decrement (or drop) the DF of every term the
document contained, subtract its length, delete the entry.  Returns the
post-state and the boolean result. -/
def BM25State.removeDocument (idx : BM25State) (id : String) :
    BM25State × Bool :=
  match mapGet idx.documents id with
  | none => (idx, false)
  | some doc =>
    let dfs := doc.termFrequencies.foldl
      (fun dfs e =>
        let current := (mapGet dfs e.1).getD 0
        if current ≤ 1 then mapDelete dfs e.1
        else mapSet dfs e.1 (current - 1))
      idx.documentFrequencies
    ({ idx with
        documentFrequencies := dfs
        totalDocLength := idx.totalDocLength - (doc.length : ℤ)
        documents := mapDelete idx.documents id },
      true)

/-- `addDocument(id, metadata)`: re-add semantics (remove first if present),
extract + tokenize the configured fields, update term/document frequencies
and the running total length. -/
def BM25State.addDocument (idx : BM25State) (id : String)
    (metadata : Option Metadata) : BM25State :=
  let idx :=
    if (mapGet idx.documents id).isSome then (idx.removeDocument id).1 else idx
  let text := extractTextFromMetadata metadata idx.textFields
  let tokens := tokenize text idx.tokenizerOptions
  let termFrequencies := getTermFrequencies tokens
  let docLength := tokens.length
  { idx with
      documentFrequencies := bumpDFsAux idx.documentFrequencies [] tokens
      documents :=
        mapSet idx.documents id
          { length := docLength
            termFrequencies := termFrequencies
            metadata := metadata }
      totalDocLength := idx.totalDocLength + (docLength : ℤ) }

/-- `updateDocument` is a full re-add. -/
def BM25State.updateDocument (idx : BM25State) (id : String)
    (metadata : Option Metadata) : BM25State :=
  idx.addDocument id metadata

/-- `avgDocLength`: 0 when the index is empty. -/
noncomputable def BM25State.avgDocLength (idx : BM25State) : ℝ :=
  if idx.documents.length = 0 then 0
  else (idx.totalDocLength : ℝ) / (idx.documents.length : ℝ)

/-- `calculateIDF(term)`: `ln((N − n + 0.5)/(n + 0.5) + 1)`, 0 for unseen
terms. -/
noncomputable def BM25State.calculateIDF (idx : BM25State) (term : String) :
    ℝ :=
  let n := (mapGet idx.documentFrequencies term).getD 0
  let N := idx.documents.length
  if n = 0 then 0
  else Real.log ((((N : ℝ) - (n : ℝ) + 0.5) / ((n : ℝ) + 0.5)) + 1)

/-- `calculateScore(docId, queryTerms)`: the BM25 sum over the query terms;
terms with zero frequency in the document contribute 0. -/
noncomputable def BM25State.calculateScore (idx : BM25State) (docId : String)
    (queryTerms : List String) : ℝ :=
  match mapGet idx.documents docId with
  | none => 0
  | some doc =>
    let avgdl := idx.avgDocLength
    if avgdl = 0 then 0
    else
      (queryTerms.map (fun term =>
        let idf := idx.calculateIDF term
        let tf := (mapGet doc.termFrequencies term).getD 0
        if tf = 0 then 0
        else
          idf * (((tf : ℝ) * (idx.k1 + 1)) /
            ((tf : ℝ) + idx.k1 *
              (1 - idx.b + idx.b * ((doc.length : ℝ) / avgdl)))))).sum

/-- Descending-by-score order used by BM25 search results. -/
def scoreDesc (x y : String × ℝ) : Prop := y.2 ≤ x.2

noncomputable instance : DecidableRel scoreDesc :=
  fun x y => inferInstanceAs (Decidable (y.2 ≤ x.2))

instance : IsTotal (String × ℝ) scoreDesc :=
  ⟨fun x y => le_total y.2 x.2⟩

instance : IsTrans (String × ℝ) scoreDesc :=
  ⟨fun _ _ _ h h' => le_trans h' h⟩

/-- A BM25 search result. -/
structure BM25SearchResult : Type where
  id : String
  score : ℝ
  metadata : Option Metadata := none

/-- `search(query, k)`: empty on an empty index or blank query; score every
document, keep the strictly positive scores, sort descending, take `k`, and
attach each document's cached metadata. -/
noncomputable def BM25State.search (idx : BM25State) (query : String)
    (k : ℕ) : List BM25SearchResult :=
  if idx.documents.isEmpty || jsTrim query = "" then []
  else
    let queryTerms := tokenize query idx.tokenizerOptions
    if queryTerms.isEmpty then []
    else
      let scores := idx.documents.filterMap (fun d =>
        let score := idx.calculateScore d.1 queryTerms
        if 0 < score then some (d.1, score) else none)
      ((scores.insertionSort scoreDesc).take k).map (fun p =>
        { id := p.1
          score := p.2
          metadata := (mapGet idx.documents p.1).bind (fun d => d.metadata) })

/-- The serialized (plain-object) form of a BM25 index. -/
structure SerializedBM25Index : Type where
  version : String
  k1 : ℝ
  b : ℝ
  textFields : List String
  avgDocLength : ℝ
  documentCount : ℕ
  documents : List (String × ℕ × List (String × ℕ))
  documentFrequencies : List (String × ℕ)

/-- `serialize()`: copies configuration, statistics, per-document `(id,
length, termFrequencies)` triples and the global DF map.  Metadata is not
serialized. -/
noncomputable def BM25State.serialize (idx : BM25State) :
    SerializedBM25Index :=
  { version := "1.0.0"
    k1 := idx.k1
    b := idx.b
    textFields := idx.textFields
    avgDocLength := idx.avgDocLength
    documentCount := idx.documents.length
    documents :=
      idx.documents.map (fun d => (d.1, d.2.length, d.2.termFrequencies))
    documentFrequencies := idx.documentFrequencies }

/-- `BM25Index.deserialize(data)`: rebuilds the maps from the snapshot and
recomputes `totalDocLength` from the document lengths.  Per-document metadata
is not restored. -/
def BM25State.deserialize (data : SerializedBM25Index) : BM25State :=
  { k1 := data.k1
    b := data.b
    textFields := data.textFields
    tokenizerOptions := {}
    documents := data.documents.map (fun d =>
      (d.1, { length := d.2.1, termFrequencies := d.2.2, metadata := none }))
    documentFrequencies := data.documentFrequencies
    totalDocLength := (data.documents.map (fun d => (d.2.1 : ℤ))).sum }

/-- `clear()`. -/
def BM25State.clear (idx : BM25State) : BM25State :=
  { idx with documents := [], documentFrequencies := [], totalDocLength := 0 }

/-! ## Distance engine (`VectorDB.ts`, pure functions) -/

/-- The accumulated dot product of the shared prefix of two vectors (the
single loop over `a.length`; the claims' preconditions keep lengths equal, in
which case this is exactly the loop's sum). -/
def dotList (a b : List ℝ) : ℝ := (a.zipWith (fun x y => x * y) b).sum

/-- Sum of squares accumulated by the norm loops. -/
def sumSq (v : List ℝ) : ℝ := (v.map (fun x => x * x)).sum

/-- `computeNorm(vector)`. -/
noncomputable def computeNorm (v : List ℝ) : ℝ := Real.sqrt (sumSq v)

/-- `cosineDistance(a, b, normA?, normB?)`: `1` when the norm product is
zero, otherwise `1 − clamp(dot/(normA·normB), −1, 1)`. -/
noncomputable def cosineDistance (a b : List ℝ)
    (normA? normB? : Option ℝ) : ℝ :=
  let dot := dotList a b
  let nA := match normA? with | some n => n | none => Real.sqrt (sumSq a)
  let nB := match normB? with | some n => n | none => Real.sqrt (sumSq b)
  let denom := nA * nB
  if denom = 0 then 1
  else 1 - max (-1) (min 1 (dot / denom))

/-- `euclideanDistance(a, b)`. -/
noncomputable def euclideanDistance (a b : List ℝ) : ℝ :=
  Real.sqrt ((a.zipWith (fun x y => (x - y) * (x - y)) b).sum)

/-- `dotProductDistance(a, b)`: negated dot product. -/
def dotProductDistance (a b : List ℝ) : ℝ := -(dotList a b)

/-! ## Vector store (`VectorDB` class) -/

inductive DistanceMetric : Type where
  | cosine : DistanceMetric
  | euclidean : DistanceMetric
  | dot : DistanceMetric
deriving Repr, DecidableEq

inductive IndexType : Type where
  | flat : IndexType
  | hnsw : IndexType
deriving Repr, DecidableEq

/-- A stored record: id, defensive copy of the vector, metadata (`null` when
absent), and the cached norm (present only under the cosine metric). -/
structure StoredVector : Type where
  id : String
  vector : List ℝ
  metadata : Option Metadata
  norm : Option ℝ

/-- The state of a `VectorDB` instance.  `vectors` is the id → record `Map`
in insertion order. -/
structure VectorDB : Type where
  vectors : List StoredVector
  dimensions : ℕ
  distance : DistanceMetric
  indexType : IndexType
  bm25Index : Option BM25State
  bm25TextFields : List String

/-- `new VectorDB(options)` (with all options supplied). -/
def VectorDB.new (dimensions : ℕ) (distance : DistanceMetric)
    (indexType : IndexType) : VectorDB :=
  { vectors := []
    dimensions := dimensions
    distance := distance
    indexType := indexType
    bm25Index := none
    bm25TextFields := [] }

/-- `calculateDistance`: dispatch on the configured metric (the `default`
arm repeats the cosine case and is unreachable). -/
noncomputable def VectorDB.calculateDistance (s : VectorDB) (a b : List ℝ)
    (normA? normB? : Option ℝ) : ℝ :=
  match s.distance with
  | .cosine => cosineDistance a b normA? normB?
  | .euclidean => euclideanDistance a b
  | .dot => dotProductDistance a b

/-- `vectors.set(id, v)` keyed by `v.id` (replace in place or append). -/
def svSet (l : List StoredVector) (v : StoredVector) : List StoredVector :=
  if l.any (fun w => w.id = v.id) then
    l.map (fun w => if w.id = v.id then v else w)
  else
    l ++ [v]

/-- `insert(id, vector, metadata?)`: dimension check, duplicate-id check,
then store the record (caching the norm iff the metric is cosine) and index
it in the BM25 index when one is configured.  Returns the post-state and the
thrown error message, if any; the checks precede every mutation, so an error
returns the original state. -/
noncomputable def VectorDB.insert (s : VectorDB) (id : String)
    (vector : List ℝ) (metadata : Option Metadata) :
    VectorDB × Option String :=
  if vector.length ≠ s.dimensions then
    (s, some "Dimension mismatch")
  else if s.vectors.any (fun w => w.id = id) then
    (s, some "already exists")
  else
    let norm :=
      if s.distance = .cosine then some (computeNorm vector) else none
    let rec₁ : StoredVector :=
      { id := id, vector := vector, metadata := metadata, norm := norm }
    let s₁ := { s with vectors := svSet s.vectors rec₁ }
    match s₁.bm25Index with
    | some idx =>
      ({ s₁ with bm25Index := some (idx.addDocument id metadata) }, none)
    | none => (s₁, none)

/-- `upsert(id, vector, metadata?)`: dimension check, then replace-or-create
and re-index. -/
noncomputable def VectorDB.upsert (s : VectorDB) (id : String)
    (vector : List ℝ) (metadata : Option Metadata) :
    VectorDB × Option String :=
  if vector.length ≠ s.dimensions then
    (s, some "Dimension mismatch")
  else
    let norm :=
      if s.distance = .cosine then some (computeNorm vector) else none
    let rec₁ : StoredVector :=
      { id := id, vector := vector, metadata := metadata, norm := norm }
    let s₁ := { s with vectors := svSet s.vectors rec₁ }
    match s₁.bm25Index with
    | some idx =>
      ({ s₁ with bm25Index := some (idx.updateDocument id metadata) }, none)
    | none => (s₁, none)

/-- A vector search result. -/
structure SearchResult : Type where
  id : String
  distance : ℝ
  similarity : ℝ
  metadata : Option Metadata

/-- The query norm passed into `calculateDistance` (computed only under the
cosine metric). -/
noncomputable def VectorDB.queryNorm (s : VectorDB) (q : List ℝ) : Option ℝ :=
  if s.distance = .cosine then some (computeNorm q) else none

/-- The result record built for one stored vector: its distance under the
configured metric and the derived similarity (`1 − d` for cosine, `−d` for
dot product, `1/(1+d)` for euclidean). -/
noncomputable def VectorDB.resultFor (s : VectorDB) (q : List ℝ)
    (r : StoredVector) : SearchResult :=
  let d := s.calculateDistance q r.vector (s.queryNorm q) r.norm
  let similarity : ℝ :=
    match s.distance with
    | .cosine => 1 - d
    | .dot => -d
    | .euclidean => 1 / (1 + d)
  { id := r.id, distance := d, similarity := similarity,
    metadata := r.metadata }

/-- The per-record acceptance test of the search loop: the metadata filter
(when provided) must pass and the derived similarity must not fall below the
threshold (`continue` on `similarity < minSimilarity`). -/
noncomputable def VectorDB.passesSearch (s : VectorDB) (env : JsEnv)
    (q : List ℝ) (filter : Option Filter) (minSimilarity : ℝ)
    (r : StoredVector) : Bool :=
  (match filter with
   | some f => evaluateFilter env r.metadata f
   | none => true) &&
  !(decide ((s.resultFor q r).similarity < minSimilarity))

/-- The `results` array accumulated by the scan, before sorting. -/
noncomputable def VectorDB.searchCandidates (s : VectorDB) (env : JsEnv)
    (q : List ℝ) (filter : Option Filter) (minSimilarity : ℝ) :
    List SearchResult :=
  (s.vectors.filter (s.passesSearch env q filter minSimilarity)).map
    (s.resultFor q)

/-- Ascending-by-distance order (`(a, b) => a.distance - b.distance`). -/
def distAsc (x y : SearchResult) : Prop := x.distance ≤ y.distance

noncomputable instance : DecidableRel distAsc :=
  fun x y => inferInstanceAs (Decidable (x.distance ≤ y.distance))

instance : IsTotal SearchResult distAsc :=
  ⟨fun x y => le_total x.distance y.distance⟩

instance : IsTrans SearchResult distAsc :=
  ⟨fun _ _ _ h h' => le_trans h h'⟩

/-- `search(query, k, options?)`: dimension check, empty-store early return,
linear scan with filter and similarity threshold (`minSimilarity` defaults
to 0), sort ascending by distance, truncate to `k`. -/
noncomputable def VectorDB.search (s : VectorDB) (env : JsEnv) (q : List ℝ)
    (k : ℕ) (filter : Option Filter) (minSimilarity : Option ℝ) :
    Except String (List SearchResult) :=
  if q.length ≠ s.dimensions then
    .error "Query dimension mismatch"
  else if s.vectors.isEmpty then
    .ok []
  else
    .ok
      (((s.searchCandidates env q filter (minSimilarity.getD 0)).insertionSort
        distAsc).take k)

/-- `delete(id)`: remove the record and, when it existed and a BM25 index is
configured, the corresponding index entry. -/
def VectorDB.deleteRecord (s : VectorDB) (id : String) : VectorDB × Bool :=
  let deleted := s.vectors.any (fun w => w.id = id)
  let s₁ := { s with vectors := s.vectors.filter (fun w => ¬ w.id = id) }
  if deleted then
    match s₁.bm25Index with
    | some idx => ({ s₁ with bm25Index := some (idx.removeDocument id).1 }, true)
    | none => (s₁, true)
  else (s₁, false)

/-- The serialized (plain-object) form of a `VectorDB`. -/
structure SerializedDB : Type where
  version : String
  dimensions : ℕ
  distance : DistanceMetric
  indexType : IndexType
  vectors : List StoredVector
  bm25Index : Option SerializedBM25Index

/-- `export()`: snapshot of configuration, records, and (when configured)
the serialized BM25 index. -/
noncomputable def VectorDB.export (s : VectorDB) : SerializedDB :=
  { version := "2.0.0"
    dimensions := s.dimensions
    distance := s.distance
    indexType := s.indexType
    vectors := s.vectors
    bm25Index := s.bm25Index.map (fun idx => idx.serialize) }

/-- `VectorDB.import(data)`: fresh store with the snapshot's configuration,
records re-`set` in order, and (when present) the deserialized BM25 index
with its text-field list. -/
def VectorDB.importDB (data : SerializedDB) : VectorDB :=
  let db := VectorDB.new data.dimensions data.distance data.indexType
  let db := { db with vectors := data.vectors.foldl svSet [] }
  match data.bm25Index with
  | some b =>
    { db with
        bm25Index := some (BM25State.deserialize b)
        bm25TextFields := b.textFields }
  | none => db

/-! ## Hybrid search (`HybridSearch.ts`) -/

/-- A vector-side input to fusion. -/
structure VectorSearchResult : Type where
  id : String
  distance : ℝ
  similarity : ℝ
  metadata : Option Metadata := none

/-- A fused hybrid result. -/
structure HybridSearchResult : Type where
  id : String
  score : ℝ
  vectorRank : Option ℕ := none
  keywordRank : Option ℕ := none
  vectorSimilarity : Option ℝ := none
  keywordScore : Option ℝ := none
  metadata : Option Metadata := none

/-- The `forEach((result, index) => ranks.set(result.id, index + 1))` loop:
1-based ranks, a duplicate id keeping its first position but taking the last
index. -/
def buildRanksAux (m : List (String × ℕ)) (n : ℕ) :
    List String → List (String × ℕ)
  | [] => m
  | id :: ids => buildRanksAux (mapSet m id (n + 1)) (n + 1) ids

/-- Rank map of a result list's ids. -/
def buildRanks (ids : List String) : List (String × ℕ) :=
  buildRanksAux [] 0 ids

/-- `new Set([...vKeys, ...kKeys])`: union in first-insertion order. -/
def addUnique (acc : List String) (id : String) : List String :=
  if acc.contains id then acc else acc ++ [id]

/-- The id universe of the fusion loop. -/
def allIds (vids kids : List String) : List String :=
  (vids ++ kids).foldl addUnique []

/-- `a || b` on optional metadata (`undefined` falls through; an object is
always truthy). -/
def jsOrMeta (a b : Option Metadata) : Option Metadata :=
  match a with
  | some m => some m
  | none => b

/-- One reciprocal-rank contribution: `1/(rrfConstant + rank)` when ranked,
0 otherwise. -/
noncomputable def rankScore (c : ℝ) : Option ℕ → ℝ
  | some r => 1 / (c + (r : ℝ))
  | none => 0

/-- The `scores` array of `reciprocalRankFusion`, before sorting: one entry
per id of either list with the summed reciprocal-rank score, the source
ranks, the original similarity/score, and the merged metadata. -/
noncomputable def rrfScores (vectorResults : List VectorSearchResult)
    (keywordResults : List BM25SearchResult) (rrfConstant : ℝ) :
    List HybridSearchResult :=
  let vranks := buildRanks (vectorResults.map (fun r => r.id))
  let kranks := buildRanks (keywordResults.map (fun r => r.id))
  (allIds (vectorResults.map (fun r => r.id))
      (keywordResults.map (fun r => r.id))).map (fun id =>
    let vectorRank := mapGet vranks id
    let keywordRank := mapGet kranks id
    let score := rankScore rrfConstant vectorRank +
      rankScore rrfConstant keywordRank
    let vectorResult := vectorResults.find? (fun r => r.id = id)
    let keywordResult := keywordResults.find? (fun r => r.id = id)
    { id := id
      score := score
      vectorRank := vectorRank
      keywordRank := keywordRank
      vectorSimilarity := vectorResult.map (fun r => r.similarity)
      keywordScore := keywordResult.map (fun r => r.score)
      metadata :=
        jsOrMeta (vectorResult.bind (fun r => r.metadata))
          (keywordResult.bind (fun r => r.metadata)) })

/-- Descending-by-score order on hybrid results. -/
def hrScoreDesc (x y : HybridSearchResult) : Prop := y.score ≤ x.score

noncomputable instance : DecidableRel hrScoreDesc :=
  fun x y => inferInstanceAs (Decidable (y.score ≤ x.score))

instance : IsTotal HybridSearchResult hrScoreDesc :=
  ⟨fun x y => le_total y.score x.score⟩

instance : IsTrans HybridSearchResult hrScoreDesc :=
  ⟨fun _ _ _ h h' => le_trans h' h⟩

/-- `reciprocalRankFusion(vectorResults, keywordResults, k, rrfConstant)`:
score every id of either list, sort descending by score, take `k`. -/
noncomputable def reciprocalRankFusion
    (vectorResults : List VectorSearchResult)
    (keywordResults : List BM25SearchResult) (k : ℕ)
    (rrfConstant : ℝ) : List HybridSearchResult :=
  ((rrfScores vectorResults keywordResults rrfConstant).insertionSort
    hrScoreDesc).take k

/-! ## Specification-side definitions and witness fixtures -/

/-- Concrete store used by several witnesses: one 1-dimensional record under
the dot-product metric. -/
def rec9 : StoredVector :=
  { id := "a", vector := [(-1 : ℝ)], metadata := none, norm := none }

def store9 : VectorDB :=
  { vectors := [rec9]
    dimensions := 1
    distance := .dot
    indexType := .flat
    bm25Index := none
    bm25TextFields := [] }

/-- 0-based index of the first occurrence of an id in a list. -/
def firstIdx? : List String → String → Option ℕ
  | [], _ => none
  | x :: xs, id =>
    if x = id then some 0 else (firstIdx? xs id).map (fun i => i + 1)

/-- Concrete fusion inputs for the C5 witness. -/
def vr5 : List VectorSearchResult :=
  [{ id := "x", distance := 0, similarity := 1, metadata := none }]

def kr5 : List BM25SearchResult :=
  [{ id := "x", score := 1, metadata := none }]

/-- Concrete BM25 configuration and document for the C7 witness. -/
def bm25opts7 : BM25Options := { textFields := ["title"] }

def md7 : Option Metadata := some [("title", JValue.str "fox")]

/-- A document entry as `deserialize` rebuilds it: metadata dropped. -/
def stripDoc (d : DocData) : DocData :=
  { length := d.length, termFrequencies := d.termFrequencies,
    metadata := none }

/-- The running-total invariant every reachable index satisfies:
`totalDocLength` is the sum of the stored document lengths. -/
def BM25Inv (idx : BM25State) : Prop :=
  idx.totalDocLength = (idx.documents.map (fun d => (d.2.length : ℤ))).sum

instance (idx : BM25State) : Decidable (BM25Inv idx) :=
  inferInstanceAs (Decidable (_ = _))

/-- The index `deserialize ∘ serialize` rebuilds: same statistics, metadata
stripped, default tokenizer options, total length recomputed. -/
def stripIdx (idx : BM25State) : BM25State :=
  { idx with
      documents := idx.documents.map (fun d => (d.1, stripDoc d.2)) }

/-- Concrete index and store for the C4/C10 witnesses. -/
def idxW : BM25State := (BM25State.new bm25opts7).addDocument "x" md7

def recW : StoredVector :=
  { id := "x", vector := [(1 : ℝ)], metadata := md7, norm := none }

def storeB : VectorDB :=
  { vectors := [recW]
    dimensions := 1
    distance := .dot
    indexType := .flat
    bm25Index := some idxW
    bm25TextFields := ["title"] }

/-! ## Association-list lemmas -/

theorem mapGet_nil {α : Type} (k : String) : mapGet ([] : List (String × α)) k = none := rfl

theorem mapGet_cons {α : Type} (a : String) (b : α) (m : List (String × α))
    (k : String) :
    mapGet ((a, b) :: m) k = if a = k then some b else mapGet m k := by
  by_cases h : a = k <;> simp [mapGet, List.find?, h]

theorem mapGet_mapSet_self {α : Type} (m : List (String × α)) (k : String)
    (v : α) : mapGet (mapSet m k v) k = some v := by
  induction m with
  | nil => simp [mapSet, mapGet, List.find?]
  | cons hd tl ih =>
    obtain ⟨a, b⟩ := hd
    by_cases hak : a = k
    · have h1 : mapSet ((a, b) :: tl) k v =
          (k, v) :: tl.map (fun e => if e.1 = k then (k, v) else e) := by
        simp [mapSet, List.any_cons, hak]
      rw [h1, mapGet_cons, if_pos rfl]
    · by_cases hm : tl.any (fun e => e.1 = k)
      · have h1 : mapSet ((a, b) :: tl) k v =
            (a, b) :: tl.map (fun e => if e.1 = k then (k, v) else e) := by
          simp [mapSet, List.any_cons, hak, hm]
        have h2 : mapSet tl k v =
            tl.map (fun e => if e.1 = k then (k, v) else e) := by
          simp [mapSet, hm]
        rw [h1, mapGet_cons, if_neg hak, ← h2, ih]
      · have h1 : mapSet ((a, b) :: tl) k v = (a, b) :: (tl ++ [(k, v)]) := by
          simp [mapSet, List.any_cons, hak, hm]
        have h2 : mapSet tl k v = tl ++ [(k, v)] := by
          simp [mapSet, hm]
        rw [h1, mapGet_cons, if_neg hak, ← h2, ih]

theorem mapGet_map_replace_ne {α : Type} (m : List (String × α))
    (k k' : String) (v : α) (h : k' ≠ k) :
    mapGet (m.map (fun e => if e.1 = k then (k, v) else e)) k' = mapGet m k' := by
  induction m with
  | nil => rfl
  | cons hd tl ih =>
    obtain ⟨a, b⟩ := hd
    by_cases hak : a = k
    · subst hak
      simp only [List.map_cons, if_pos rfl]
      rw [mapGet_cons, mapGet_cons, if_neg (fun hh => h hh.symm),
        if_neg (fun hh => h hh.symm), ih]
    · simp only [List.map_cons, if_neg hak]
      rw [mapGet_cons, mapGet_cons, ih]

theorem mapGet_append_ne {α : Type} (m : List (String × α)) (k k' : String)
    (v : α) (h : k' ≠ k) : mapGet (m ++ [(k, v)]) k' = mapGet m k' := by
  induction m with
  | nil =>
    simp only [List.nil_append]
    rw [mapGet_cons, if_neg (fun hh => h hh.symm)]
  | cons hd tl ih =>
    obtain ⟨a, b⟩ := hd
    simp only [List.cons_append]
    rw [mapGet_cons, mapGet_cons, ih]

theorem mapGet_mapSet_ne {α : Type} (m : List (String × α)) (k k' : String)
    (v : α) (h : k' ≠ k) : mapGet (mapSet m k v) k' = mapGet m k' := by
  by_cases hm : m.any (fun e => e.1 = k)
  · have h1 : mapSet m k v = m.map (fun e => if e.1 = k then (k, v) else e) := by
      simp [mapSet, hm]
    rw [h1, mapGet_map_replace_ne m k k' v h]
  · have h1 : mapSet m k v = m ++ [(k, v)] := by simp [mapSet, hm]
    rw [h1, mapGet_append_ne m k k' v h]

theorem mapGet_map_val {α β : Type} (g : α → β) (m : List (String × α))
    (k : String) :
    mapGet (m.map (fun e => (e.1, g e.2))) k = (mapGet m k).map g := by
  induction m with
  | nil => rfl
  | cons hd tl ih =>
    obtain ⟨a, b⟩ := hd
    simp only [List.map_cons]
    rw [mapGet_cons, mapGet_cons]
    by_cases hak : a = k
    · simp [hak]
    · simp only [if_neg hak, ih]

/-! ## Distance-engine facts -/

theorem sumSq_nonneg (v : List ℝ) : 0 ≤ sumSq v := by
  refine List.sum_nonneg ?_
  intro x hx
  simp only [List.mem_map] at hx
  obtain ⟨y, _, rfl⟩ := hx
  exact mul_self_nonneg y

theorem dotList_self (a : List ℝ) : dotList a a = sumSq a := by
  unfold dotList sumSq
  induction a with
  | nil => rfl
  | cons x xs ih => simp [List.zipWith, ih]

theorem clamp_le_one (x : ℝ) : max (-1) (min 1 x) ≤ 1 :=
  max_le (by norm_num) (min_le_left _ _)

theorem neg_one_le_clamp (x : ℝ) : (-1 : ℝ) ≤ max (-1) (min 1 x) :=
  le_max_left _ _

theorem cosineDistance_eq (x y : List ℝ) :
    cosineDistance x y none none =
      if Real.sqrt (sumSq x) * Real.sqrt (sumSq y) = 0 then 1
      else 1 - max (-1) (min 1 (dotList x y /
        (Real.sqrt (sumSq x) * Real.sqrt (sumSq y)))) := rfl

/-- C8: for equal-length vectors, `cosineDistance(a, b)` (with norms
computed) is `1 − clamp(dot/(‖a‖·‖b‖), −1, 1)` whenever the norm product is
non-zero, is exactly `1` when either norm is zero, always lies in `[0, 2]`,
and `cosineDistance(a, a)` is exactly `0` whenever `‖a‖ > 0`. -/
theorem claim_cosineDistance (a b : List ℝ) (h : a.length = b.length) :
    ((Real.sqrt (sumSq a) * Real.sqrt (sumSq b) ≠ 0 →
      cosineDistance a b none none =
        1 - max (-1) (min 1 (dotList a b /
          (Real.sqrt (sumSq a) * Real.sqrt (sumSq b))))) ∧
    (Real.sqrt (sumSq a) = 0 ∨ Real.sqrt (sumSq b) = 0 →
      cosineDistance a b none none = 1) ∧
    0 ≤ cosineDistance a b none none ∧
    cosineDistance a b none none ≤ 2) ∧
    (0 < Real.sqrt (sumSq a) → cosineDistance a a none none = 0) := by
  refine ⟨⟨?_, ?_, ?_, ?_⟩, ?_⟩
  · intro hd
    rw [cosineDistance_eq, if_neg hd]
  · intro h0
    have hd : Real.sqrt (sumSq a) * Real.sqrt (sumSq b) = 0 := by
      rcases h0 with h0 | h0 <;> simp [h0]
    rw [cosineDistance_eq, if_pos hd]
  · rw [cosineDistance_eq]
    split_ifs with hd
    · norm_num
    · have := clamp_le_one (dotList a b /
        (Real.sqrt (sumSq a) * Real.sqrt (sumSq b)))
      linarith
  · rw [cosineDistance_eq]
    split_ifs with hd
    · norm_num
    · have := neg_one_le_clamp (dotList a b /
        (Real.sqrt (sumSq a) * Real.sqrt (sumSq b)))
      linarith
  · intro hpos
    have hs : 0 < sumSq a := Real.sqrt_pos.mp hpos
    have hss : Real.sqrt (sumSq a) * Real.sqrt (sumSq a) = sumSq a :=
      Real.mul_self_sqrt (sumSq_nonneg a)
    rw [cosineDistance_eq, if_neg (by rw [hss]; exact ne_of_gt hs)]
    rw [hss, dotList_self, div_self (ne_of_gt hs)]
    rw [min_self, max_eq_right (by norm_num : (-1 : ℝ) ≤ 1)]
    ring

/-- Witness for C8 at the concrete pair `a = [1, 0]`, `b = [0, 1]`. -/
theorem claim_cosineDistance_witness :
    (([(1 : ℝ), 0] : List ℝ).length = ([(0 : ℝ), 1] : List ℝ).length) ∧
    (0 ≤ cosineDistance [(1 : ℝ), 0] [(0 : ℝ), 1] none none ∧
      cosineDistance [(1 : ℝ), 0] [(0 : ℝ), 1] none none ≤ 2) :=
  ⟨rfl, (claim_cosineDistance [(1 : ℝ), 0] [(0 : ℝ), 1] rfl).1.2.2⟩

/-! ## Filter-evaluator claims -/

/-- C1 counterexample: at the concrete metadata `null` the filter
`{"$or": []}` evaluates to `true`, not `false` — the
`filter.$or.length > 0` guard means an empty `$or` list never fails the
filter, contradicting the claim that it matches nothing. -/
theorem claim_emptyOr_counterexample :
    evaluateFilter env0 none (.mk none (some []) []) = true := rfl

/-- C1 (amended): for every metadata object `m` (and any host environment),
evaluating the filter `{"$or": []}` against `m` returns `true`: an empty
`$or` list imposes no constraint (it is vacuously satisfied), rather than
being a non-match. -/
theorem claim_emptyOr_amended (env : JsEnv) (m : Option Metadata) :
    evaluateFilter env m (.mk none (some []) []) = true := rfl

/-- C6: dot-path filtering uses exact, non-coercing equality and treats
broken paths as absent: `{"a.b": 5}` matches `{"a": {"b": 5}}`, does not
match `{"a": {"b": "5"}}` (string vs number), and does not match
`{"a": 5}` (intermediate segment is not an object). -/
theorem claim_dotPath_equality (env : JsEnv) :
    evaluateFilter env (some [("a", .obj [("b", .num 5)])])
      (.mk none none [("a.b", .num 5)]) = true ∧
    evaluateFilter env (some [("a", .obj [("b", .str "5")])])
      (.mk none none [("a.b", .num 5)]) = false ∧
    evaluateFilter env (some [("a", .num 5)])
      (.mk none none [("a.b", .num 5)]) = false :=
  ⟨rfl, rfl, rfl⟩

/-! ## Vector-store claims -/

/-- C2: whenever the query has the store's dimensionality, `search` succeeds
and returns a list sorted by non-decreasing distance whose length is at most
`min k m`, where `m` is the number of stored records that pass the filter and
the minimum-similarity threshold. -/
theorem claim_search_sorted_bounded (env : JsEnv) (s : VectorDB) (q : List ℝ)
    (k : ℕ) (filter : Option Filter) (minSimilarity : Option ℝ)
    (h : q.length = s.dimensions) :
    ∃ results, s.search env q k filter minSimilarity = .ok results ∧
      results.Pairwise distAsc ∧
      results.length ≤
        min k (s.vectors.countP
          (s.passesSearch env q filter (minSimilarity.getD 0))) := by
  unfold VectorDB.search
  rw [if_neg (by omega : ¬ q.length ≠ s.dimensions)]
  by_cases he : s.vectors.isEmpty
  · rw [if_pos he]
    exact ⟨[], rfl, List.Pairwise.nil, by simp⟩
  · rw [if_neg he]
    refine ⟨_, rfl, ?_, ?_⟩
    · exact (List.sorted_insertionSort distAsc _).sublist
        (List.take_sublist _ _)
    · rw [List.length_take, List.length_insertionSort]
      unfold VectorDB.searchCandidates
      rw [List.length_map, ← List.countP_eq_length_filter]

/-- Witness for C2 on the concrete one-record store. -/
theorem claim_search_sorted_bounded_witness :
    ∃ results, store9.search env0 [(1 : ℝ)] 5 none none = .ok results ∧
      results.Pairwise distAsc ∧
      results.length ≤
        min 5 (store9.vectors.countP
          (store9.passesSearch env0 [(1 : ℝ)] none 0)) :=
  claim_search_sorted_bounded env0 store9 [(1 : ℝ)] 5 none none rfl

/-- C3: a failed `insert` or `upsert` (the returned error is `some`) leaves
the whole store state — records and BM25 index — exactly as it was, and a
dimension mismatch makes `insert`, `upsert` and `search` all fail. -/
theorem claim_failed_ops_leave_store (env : JsEnv) (s : VectorDB)
    (id : String) (v : List ℝ) (md : Option Metadata) (k : ℕ)
    (filter : Option Filter) (minSimilarity : Option ℝ) :
    ((s.insert id v md).2.isSome → (s.insert id v md).1 = s) ∧
    ((s.upsert id v md).2.isSome → (s.upsert id v md).1 = s) ∧
    (v.length ≠ s.dimensions →
      (s.insert id v md).2.isSome ∧ (s.upsert id v md).2.isSome ∧
      s.search env v k filter minSimilarity =
        .error "Query dimension mismatch") := by
  refine ⟨?_, ?_, ?_⟩
  · intro hs
    by_cases h1 : v.length ≠ s.dimensions
    · simp [VectorDB.insert, h1]
    · by_cases h2 : s.vectors.any (fun w => w.id = id)
      · simp [VectorDB.insert, h1, h2]
      · exfalso
        cases hb : s.bm25Index <;>
          simp [VectorDB.insert, h1, h2, hb] at hs
  · intro hs
    by_cases h1 : v.length ≠ s.dimensions
    · simp [VectorDB.upsert, h1]
    · exfalso
      cases hb : s.bm25Index <;>
        simp [VectorDB.upsert, h1, hb] at hs
  · intro h1
    refine ⟨?_, ?_, ?_⟩
    · simp [VectorDB.insert, h1]
    · simp [VectorDB.upsert, h1]
    · unfold VectorDB.search
      rw [if_pos h1]

/-- Witness for C3: inserting a 2-component vector into the 1-dimensional
store fails and returns the store unchanged. -/
theorem claim_failed_ops_leave_store_witness :
    (store9.insert "b" [(1 : ℝ), 2] none).2.isSome ∧
    (store9.insert "b" [(1 : ℝ), 2] none).1 = store9 := by
  have h := claim_failed_ops_leave_store env0 store9 "b" [(1 : ℝ), 2] none 1
    none none
  have h1 := (h.2.2 (by decide)).1
  exact ⟨h1, h.1 h1⟩

/-- C9: `search` without a `minSimilarity` option behaves exactly like
`minSimilarity = 0`, so any stored record whose derived similarity is
strictly negative never appears in the results. -/
theorem claim_negative_similarity_excluded (env : JsEnv) (s : VectorDB)
    (q : List ℝ) (k : ℕ) (filter : Option Filter) (r : StoredVector)
    (hmem : r ∈ s.vectors) (hlen : q.length = s.dimensions)
    (hnodup : (s.vectors.map (fun w => w.id)).Nodup)
    (hneg : (s.resultFor q r).similarity < 0) :
    s.search env q k filter none = s.search env q k filter (some 0) ∧
    ∀ results, s.search env q k filter none = .ok results →
      ∀ res ∈ results, res.id ≠ r.id := by
  constructor
  · rfl
  · intro results hres res hmemres hid
    unfold VectorDB.search at hres
    rw [if_neg (by omega : ¬ q.length ≠ s.dimensions)] at hres
    by_cases he : s.vectors.isEmpty
    · rw [if_pos he] at hres
      injection hres with hres
      subst hres
      simp at hmemres
    · rw [if_neg he] at hres
      injection hres with hres
      subst hres
      have hins : res ∈ (s.searchCandidates env q filter
          ((none : Option ℝ).getD 0)).insertionSort distAsc :=
        List.mem_of_mem_take hmemres
      have hcand : res ∈ s.searchCandidates env q filter
          ((none : Option ℝ).getD 0) :=
        (List.perm_insertionSort distAsc _).mem_iff.mp hins
      unfold VectorDB.searchCandidates at hcand
      rw [List.mem_map] at hcand
      obtain ⟨r', hr', hres'⟩ := hcand
      rw [List.mem_filter] at hr'
      obtain ⟨hr'mem, hr'pass⟩ := hr'
      have hid' : r'.id = r.id := by
        have : (s.resultFor q r').id = r'.id := rfl
        rw [← hres'] at hid
        rw [this] at hid
        exact hid
      have : r' = r :=
        List.inj_on_of_nodup_map hnodup hr'mem hmem hid'
      subst this
      unfold VectorDB.passesSearch at hr'pass
      simp only [Option.getD] at hr'pass
      rw [Bool.and_eq_true] at hr'pass
      have := hr'pass.2
      simp [hneg] at this

/-- Witness for C9: under the dot-product metric, the stored vector `[-1]`
has similarity `-1 < 0` against the query `[1]` and is excluded from a
search that passes no `minSimilarity`. -/
theorem claim_negative_similarity_excluded_witness :
    store9.search env0 [(1 : ℝ)] 1 none none =
      store9.search env0 [(1 : ℝ)] 1 none (some 0) ∧
    ∀ results, store9.search env0 [(1 : ℝ)] 1 none none = .ok results →
      ∀ res ∈ results, res.id ≠ rec9.id :=
  claim_negative_similarity_excluded env0 store9 [(1 : ℝ)] 1 none rec9
    (by simp [store9]) rfl (by simp [store9, rec9])
    (by
      show (store9.resultFor [(1 : ℝ)] rec9).similarity < 0
      simp only [VectorDB.resultFor, VectorDB.calculateDistance, store9, rec9,
        VectorDB.queryNorm, dotProductDistance, dotList]
      norm_num)

/-! ## Reciprocal Rank Fusion facts -/

theorem firstIdx?_eq_none {xs : List String} {id : String} (h : id ∉ xs) :
    firstIdx? xs id = none := by
  induction xs with
  | nil => rfl
  | cons x t ih =>
    have hx : x ≠ id := fun hh => h (hh ▸ List.mem_cons_self x t)
    have ht : id ∉ t := fun hh => h (List.mem_cons_of_mem x hh)
    simp [firstIdx?, hx, ih ht]

theorem buildRanksAux_get (ids : List String) :
    ∀ (m : List (String × ℕ)) (n : ℕ) (id : String), ids.Nodup →
      mapGet (buildRanksAux m n ids) id =
        (match firstIdx? ids id with
         | some i => some (n + i + 1)
         | none => mapGet m id) := by
  induction ids with
  | nil => intro m n id _; rfl
  | cons x xs ih =>
    intro m n id hnd
    have hxn : x ∉ xs := (List.nodup_cons.mp hnd).1
    have hxs : xs.Nodup := (List.nodup_cons.mp hnd).2
    by_cases hx : x = id
    · subst hx
      have h1 : firstIdx? (x :: xs) x = some 0 := by simp [firstIdx?]
      rw [h1]
      show mapGet (buildRanksAux (mapSet m x (n + 1)) (n + 1) xs) x = _
      rw [ih (mapSet m x (n + 1)) (n + 1) x hxs, firstIdx?_eq_none hxn,
        mapGet_mapSet_self]
    · have h1 : firstIdx? (x :: xs) id =
          (firstIdx? xs id).map (fun i => i + 1) := by simp [firstIdx?, hx]
      rw [h1]
      show mapGet (buildRanksAux (mapSet m x (n + 1)) (n + 1) xs) id = _
      rw [ih (mapSet m x (n + 1)) (n + 1) id hxs,
        mapGet_mapSet_ne m x id (n + 1) (fun hh => hx hh.symm)]
      cases firstIdx? xs id with
      | none => rfl
      | some i => simp; omega

theorem buildRanks_get (ids : List String) (id : String) (h : ids.Nodup) :
    mapGet (buildRanks ids) id = (firstIdx? ids id).map (fun i => i + 1) := by
  unfold buildRanks
  rw [buildRanksAux_get ids [] 0 id h]
  cases firstIdx? ids id with
  | none => rfl
  | some i => simp

theorem mem_addUnique (acc : List String) (a x : String) :
    x ∈ addUnique acc a ↔ x ∈ acc ∨ x = a := by
  unfold addUnique
  by_cases hc : acc.contains a
  · rw [if_pos hc]
    have ha : a ∈ acc := by simpa using hc
    constructor
    · exact fun h => Or.inl h
    · rintro (h | rfl)
      · exact h
      · exact ha
  · rw [if_neg hc]
    simp

theorem mem_foldl_addUnique (l : List String) :
    ∀ (acc : List String) (x : String),
      x ∈ l.foldl addUnique acc ↔ x ∈ acc ∨ x ∈ l := by
  induction l with
  | nil => intro acc x; simp
  | cons a t ih =>
    intro acc x
    show x ∈ t.foldl addUnique (addUnique acc a) ↔ _
    rw [ih (addUnique acc a) x, mem_addUnique]
    simp only [List.mem_cons]
    tauto

theorem mem_allIds (vids kids : List String) (x : String) :
    x ∈ allIds vids kids ↔ x ∈ vids ∨ x ∈ kids := by
  unfold allIds
  rw [mem_foldl_addUnique]
  simp

theorem rrfScores_entry (vr : List VectorSearchResult)
    (kr : List BM25SearchResult) (c : ℝ) :
    ∀ e ∈ rrfScores vr kr c,
      e.score = rankScore c e.vectorRank + rankScore c e.keywordRank := by
  intro e he
  unfold rrfScores at he
  rw [List.mem_map] at he
  obtain ⟨id, _, rfl⟩ := he
  rfl

/-- C5: every id appearing in either ranked list receives an entry in the
RRF score table (which `reciprocalRankFusion` sorts and truncates), whose
score is `1/(c + vectorRank) + 1/(c + keywordRank)` with a missing rank
contributing `0` (ranks are 1-based first occurrences); consequently, with
the default constant 60, an entry ranked 1 in both lists scores strictly
higher than an entry ranked 1 in only the vector list. -/
theorem claim_rrf (vr : List VectorSearchResult) (kr : List BM25SearchResult)
    (c : ℝ) (k : ℕ) (hv : (vr.map (fun r => r.id)).Nodup)
    (hk : (kr.map (fun r => r.id)).Nodup) :
    (∀ e ∈ reciprocalRankFusion vr kr k c, e ∈ rrfScores vr kr c) ∧
    (∀ e ∈ rrfScores vr kr c,
      e.score =
        (match firstIdx? (vr.map (fun r => r.id)) e.id with
         | some i => 1 / (c + ((i + 1 : ℕ) : ℝ))
         | none => 0) +
        (match firstIdx? (kr.map (fun r => r.id)) e.id with
         | some i => 1 / (c + ((i + 1 : ℕ) : ℝ))
         | none => 0)) ∧
    (∀ id, (id ∈ vr.map (fun r => r.id) ∨ id ∈ kr.map (fun r => r.id)) →
      ∃ e ∈ rrfScores vr kr c, e.id = id) ∧
    (∀ e₁ e₂, e₁ ∈ rrfScores vr kr 60 → e₂ ∈ rrfScores vr kr 60 →
      e₁.vectorRank = some 1 → e₁.keywordRank = some 1 →
      e₂.vectorRank = some 1 → e₂.keywordRank = none →
      e₂.score < e₁.score) := by
  refine ⟨?_, ?_, ?_, ?_⟩
  · intro e he
    unfold reciprocalRankFusion at he
    exact (List.perm_insertionSort hrScoreDesc _).mem_iff.mp
      (List.mem_of_mem_take he)
  · intro e he
    unfold rrfScores at he
    rw [List.mem_map] at he
    obtain ⟨id, _, rfl⟩ := he
    show rankScore c (mapGet (buildRanks (vr.map (fun r => r.id))) id) +
        rankScore c (mapGet (buildRanks (kr.map (fun r => r.id))) id) = _
    rw [buildRanks_get _ id hv, buildRanks_get _ id hk]
    cases firstIdx? (vr.map (fun r => r.id)) id with
    | none =>
      cases firstIdx? (kr.map (fun r => r.id)) id with
      | none => simp [rankScore]
      | some j => simp [rankScore]
    | some i =>
      cases firstIdx? (kr.map (fun r => r.id)) id with
      | none => simp [rankScore]
      | some j => simp [rankScore]
  · intro id hid
    have : id ∈ allIds (vr.map (fun r => r.id)) (kr.map (fun r => r.id)) :=
      (mem_allIds _ _ id).mpr hid
    refine ⟨_, List.mem_map_of_mem _ this, rfl⟩
  · intro e₁ e₂ h₁ h₂ hv₁ hk₁ hv₂ hk₂
    have hs₁ := rrfScores_entry vr kr 60 e₁ h₁
    have hs₂ := rrfScores_entry vr kr 60 e₂ h₂
    rw [hv₁, hk₁] at hs₁
    rw [hv₂, hk₂] at hs₂
    simp only [rankScore] at hs₁ hs₂
    rw [hs₁, hs₂]
    push_cast
    norm_num

/-- Witness for C5: the id `"x"`, ranked in both singleton lists, receives an
RRF score entry. -/
theorem claim_rrf_witness : ∃ e ∈ rrfScores vr5 kr5 60, e.id = "x" :=
  (claim_rrf vr5 kr5 60 3 (by simp [vr5]) (by simp [kr5])).2.2.1 "x"
    (Or.inl (by simp [vr5]))

/-! ## BM25 counting lemmas -/

theorem gtf_fold_get (tokens : List String) :
    ∀ (m : List (String × ℕ)) (t : String),
      (mapGet (tokens.foldl
        (fun m token => mapSet m token (((mapGet m token).getD 0) + 1)) m)
        t).getD 0 =
      (mapGet m t).getD 0 + tokens.count t := by
  induction tokens with
  | nil => intro m t; simp
  | cons tok ts ih =>
    intro m t
    show (mapGet (ts.foldl _
      (mapSet m tok (((mapGet m tok).getD 0) + 1))) t).getD 0 = _
    rw [ih]
    by_cases ht : tok = t
    · subst ht
      rw [mapGet_mapSet_self]
      simp only [Option.getD_some, List.count_cons_self]
      omega
    · rw [mapGet_mapSet_ne m tok t _ (fun hh => ht hh.symm),
        List.count_cons_of_ne (fun hh => ht hh.symm)]

theorem getTermFrequencies_get (tokens : List String) (t : String) :
    (mapGet (getTermFrequencies tokens) t).getD 0 = tokens.count t := by
  have h := gtf_fold_get tokens [] t
  simpa [getTermFrequencies, mapGet, List.find?] using h

theorem bumpDFsAux_get (ts : List String) :
    ∀ (dfs : List (String × ℕ)) (seen : List String),
      (∀ x, mapGet dfs x = if x ∈ seen then some 1 else none) →
      ∀ x, mapGet (bumpDFsAux dfs seen ts) x =
        if x ∈ seen ∨ x ∈ ts then some 1 else none := by
  induction ts with
  | nil =>
    intro dfs seen hinv x
    show mapGet dfs x = _
    rw [hinv x]
    simp
  | cons t ts ih =>
    intro dfs seen hinv x
    have heq : bumpDFsAux dfs seen (t :: ts) =
        if seen.contains t then bumpDFsAux dfs seen ts
        else bumpDFsAux
          (mapSet dfs t (((mapGet dfs t).getD 0) + 1)) (t :: seen) ts := rfl
    by_cases hc : seen.contains t = true
    · have htm : t ∈ seen := by simpa using hc
      rw [heq, if_pos hc, ih dfs seen hinv x]
      have hiff : (x ∈ seen ∨ x ∈ ts) ↔ (x ∈ seen ∨ x ∈ t :: ts) := by
        simp only [List.mem_cons]
        constructor
        · tauto
        · rintro (h | rfl | h)
          · exact Or.inl h
          · exact Or.inl htm
          · exact Or.inr h
      rw [if_congr hiff rfl rfl]
    · have htm : t ∉ seen := by simpa using hc
      have hnew : ∀ y, mapGet (mapSet dfs t (((mapGet dfs t).getD 0) + 1)) y =
          if y ∈ t :: seen then some 1 else none := by
        intro y
        by_cases hy : y = t
        · subst hy
          rw [mapGet_mapSet_self, hinv y, if_neg htm]
          simp
        · rw [mapGet_mapSet_ne dfs t y _ hy, hinv y]
          simp [hy]
      rw [heq, if_neg hc, ih _ (t :: seen) hnew x]
      have hiff : (x ∈ t :: seen ∨ x ∈ ts) ↔ (x ∈ seen ∨ x ∈ t :: ts) := by
        simp only [List.mem_cons]
        tauto
      rw [if_congr hiff rfl rfl]

theorem bumpDFs_empty_get (tokens : List String) (x : String) :
    mapGet (bumpDFsAux [] [] tokens) x =
      if x ∈ tokens then some 1 else none := by
  have h := bumpDFsAux_get tokens [] []
    (fun y => by simp [mapGet, List.find?]) x
  simpa using h

/-- C7: starting from a fresh BM25 index (with non-negative `k1`, as in the
default configuration), indexing a single document whose extracted text
contains the term `T` (with `T` a self-tokenizing, non-blank query) makes a
search for `T` return exactly that document with a strictly positive score;
removing the document again makes the same search return the empty list. -/
theorem claim_bm25_single_doc (options : BM25Options) (id : String)
    (md : Option Metadata) (T : String) (k : ℕ)
    (hk1 : 0 ≤ options.k1.getD 1.2)
    (hT : T ∈ tokenize (extractTextFromMetadata md options.textFields)
      (options.tokenizerOptions.getD {}))
    (hq : tokenize T (options.tokenizerOptions.getD {}) = [T])
    (htrim : jsTrim T ≠ "")
    (hk : 1 ≤ k) :
    (∃ score : ℝ, 0 < score ∧
      ((BM25State.new options).addDocument id md).search T k =
        [{ id := id, score := score, metadata := md }]) ∧
    ((((BM25State.new options).addDocument id md).removeDocument id).1).search
      T k = [] := by
  set topts := options.tokenizerOptions.getD {} with htopts
  set tokens :=
    tokenize (extractTextFromMetadata md options.textFields) topts with htoks
  set doc : DocData :=
    { length := tokens.length
      termFrequencies := getTermFrequencies tokens
      metadata := md } with hdoc
  set idx1 : BM25State :=
    { k1 := options.k1.getD 1.2
      b := options.b.getD 0.75
      textFields := options.textFields
      tokenizerOptions := topts
      documents := [(id, doc)]
      documentFrequencies := bumpDFsAux [] [] tokens
      totalDocLength := (tokens.length : ℤ) } with hidx1
  have hbuild : (BM25State.new options).addDocument id md = idx1 := by
    unfold BM25State.addDocument BM25State.new
    simp [mapGet, List.find?, mapSet, hidx1, hdoc, htoks, htopts]
  have hL : 0 < tokens.length := List.length_pos_of_mem hT
  have hLne : ((tokens.length : ℝ)) ≠ 0 := by
    exact_mod_cast Nat.pos_iff_ne_zero.mp hL
  have havg : idx1.avgDocLength = (tokens.length : ℝ) := by
    unfold BM25State.avgDocLength
    rw [hidx1]
    norm_num
  have hget : mapGet idx1.documents id = some doc := by
    rw [hidx1]
    simp [mapGet_cons]
  have hidf : idx1.calculateIDF T =
      Real.log ((((1 : ℕ) : ℝ) - ((1 : ℕ) : ℝ) + 0.5) /
        (((1 : ℕ) : ℝ) + 0.5) + 1) := by
    unfold BM25State.calculateIDF
    rw [hidx1]
    simp only
    rw [bumpDFs_empty_get tokens T, if_pos hT]
    norm_num
  have hidf_pos : 0 < idx1.calculateIDF T := by
    rw [hidf]
    apply Real.log_pos
    norm_num
  have htf : (mapGet doc.termFrequencies T).getD 0 = tokens.count T := by
    rw [hdoc]
    exact getTermFrequencies_get tokens T
  have htf_pos : 0 < tokens.count T := List.count_pos_iff.mpr hT
  have hsc_pos : 0 < idx1.calculateScore id [T] := by
    simp only [BM25State.calculateScore, hget, havg]
    rw [if_neg hLne]
    simp only [List.map_cons, List.map_nil, List.sum_cons, List.sum_nil,
      add_zero]
    rw [htf, if_neg (Nat.pos_iff_ne_zero.mp htf_pos)]
    have hlen : (doc.length : ℝ) = (tokens.length : ℝ) := by
      rw [hdoc]
    rw [hlen, div_self hLne]
    have hk1' : (0 : ℝ) ≤ idx1.k1 := by rw [hidx1]; exact hk1
    have hcount : (1 : ℝ) ≤ (tokens.count T : ℝ) := by
      exact_mod_cast htf_pos
    have hden : (tokens.count T : ℝ) +
        idx1.k1 * (1 - idx1.b + idx1.b * 1) =
        (tokens.count T : ℝ) + idx1.k1 := by ring
    rw [hden]
    apply mul_pos hidf_pos
    apply div_pos
    · apply mul_pos (by linarith) (by linarith)
    · linarith
  have hsearch1 : idx1.search T k =
      [{ id := id, score := idx1.calculateScore id [T], metadata := md }] := by
    unfold BM25State.search
    rw [if_neg (by simp [hidx1, htrim])]
    have hqt : tokenize T idx1.tokenizerOptions = [T] := by
      rw [hidx1]
      exact hq
    rw [hqt]
    rw [if_neg (by simp)]
    have hscores : idx1.documents.filterMap (fun d =>
        let score := idx1.calculateScore d.1 [T]
        if 0 < score then some (d.1, score) else none) =
        [(id, idx1.calculateScore id [T])] := by
      conv_lhs => rw [hidx1]
      simp only [List.filterMap_cons, List.filterMap_nil]
      rw [if_pos hsc_pos]
    have hsort : ([(id, idx1.calculateScore id [T])].insertionSort scoreDesc) =
        [(id, idx1.calculateScore id [T])] := rfl
    obtain ⟨k', rfl⟩ : ∃ k', k = k' + 1 := ⟨k - 1, by omega⟩
    simp only [hscores, hsort, List.take_succ_cons, List.take_nil,
      List.map_cons, List.map_nil, hget, Option.some_bind]
  constructor
  · exact ⟨idx1.calculateScore id [T], hsc_pos, by rw [hbuild]; exact hsearch1⟩
  · rw [hbuild]
    have hrem : (idx1.removeDocument id).1.documents = [] := by
      unfold BM25State.removeDocument
      rw [hget]
      simp [mapDelete]
    unfold BM25State.search
    rw [if_pos (by simp [hrem])]

/-- Witness for C7: indexing `{title: "fox"}` and searching `"fox"`. -/
theorem claim_bm25_single_doc_witness :
    (∃ score : ℝ, 0 < score ∧
      ((BM25State.new bm25opts7).addDocument "x" md7).search "fox" 1 =
        [{ id := "x", score := score, metadata := md7 }]) ∧
    ((((BM25State.new bm25opts7).addDocument "x" md7).removeDocument
      "x").1).search "fox" 1 = [] :=
  claim_bm25_single_doc bm25opts7 "x" md7 "fox" 1
    (by norm_num [bm25opts7]) (by decide) (by decide) (by decide) (by decide)

/-! ## Serialization round-trip -/

theorem deserialize_serialize (idx : BM25State) (hInv : BM25Inv idx)
    (hTok : idx.tokenizerOptions = {}) :
    BM25State.deserialize idx.serialize = stripIdx idx := by
  cases idx with
  | mk k1 b tf topts docs dfs total =>
    unfold BM25Inv at hInv
    simp only at hInv hTok
    subst hTok
    unfold BM25State.deserialize BM25State.serialize stripIdx
    simp only [List.map_map]
    rw [hInv]
    rfl

theorem isEmpty_map_strip (l : List (String × DocData)) :
    (l.map (fun d => (d.1, stripDoc d.2))).isEmpty = l.isEmpty := by
  cases l <;> rfl

theorem filterMap_fst_map_strip {β : Type} (l : List (String × DocData))
    (f : String → Option β) :
    (l.map (fun d => (d.1, stripDoc d.2))).filterMap (fun d => f d.1) =
      l.filterMap (fun d => f d.1) := by
  rw [List.filterMap_map]
  rfl

theorem calculateScore_none (idx : BM25State) (docId : String)
    (terms : List String) (h : mapGet idx.documents docId = none) :
    idx.calculateScore docId terms = 0 := by
  unfold BM25State.calculateScore
  rw [h]

theorem calculateScore_some (idx : BM25State) (docId : String)
    (terms : List String) (doc : DocData)
    (h : mapGet idx.documents docId = some doc) :
    idx.calculateScore docId terms =
      if idx.avgDocLength = 0 then 0
      else (terms.map (fun term =>
        if (mapGet doc.termFrequencies term).getD 0 = 0 then 0
        else idx.calculateIDF term *
          ((((mapGet doc.termFrequencies term).getD 0 : ℕ) : ℝ) *
              (idx.k1 + 1) /
            ((((mapGet doc.termFrequencies term).getD 0 : ℕ) : ℝ) +
              idx.k1 * (1 - idx.b + idx.b *
                ((doc.length : ℝ) / idx.avgDocLength)))))).sum := by
  unfold BM25State.calculateScore
  rw [h]

theorem stripIdx_documents (idx : BM25State) :
    (stripIdx idx).documents =
      idx.documents.map (fun d => (d.1, stripDoc d.2)) := rfl

theorem stripIdx_avg (idx : BM25State) :
    (stripIdx idx).avgDocLength = idx.avgDocLength := by
  unfold BM25State.avgDocLength
  rw [stripIdx_documents, List.length_map]
  rfl

theorem stripIdx_idf (idx : BM25State) (t : String) :
    (stripIdx idx).calculateIDF t = idx.calculateIDF t := by
  unfold BM25State.calculateIDF
  rw [show (stripIdx idx).documentFrequencies =
    idx.documentFrequencies from rfl]
  rw [stripIdx_documents, List.length_map]

theorem stripIdx_score (idx : BM25State) (docId : String)
    (terms : List String) :
    (stripIdx idx).calculateScore docId terms =
      idx.calculateScore docId terms := by
  cases hmg : mapGet idx.documents docId with
  | none =>
    rw [calculateScore_none idx docId terms hmg,
      calculateScore_none (stripIdx idx) docId terms
        (by rw [stripIdx_documents, mapGet_map_val, hmg]; rfl)]
  | some doc =>
    rw [calculateScore_some idx docId terms doc hmg,
      calculateScore_some (stripIdx idx) docId terms (stripDoc doc)
        (by rw [stripIdx_documents, mapGet_map_val, hmg]; rfl)]
    rw [stripIdx_avg]
    by_cases hz : idx.avgDocLength = 0
    · rw [if_pos hz, if_pos hz]
    · rw [if_neg hz, if_neg hz]
      congr 1
      apply List.map_congr_left
      intro term _
      simp only [stripDoc]
      rw [stripIdx_idf idx term]
      rfl

theorem search_deserialize_serialize (idx : BM25State) (q : String) (k : ℕ)
    (hInv : BM25Inv idx) (hTok : idx.tokenizerOptions = {}) :
    (BM25State.deserialize idx.serialize).search q k =
      (idx.search q k).map (fun r => { r with metadata := none }) := by
  rw [deserialize_serialize idx hInv hTok]
  unfold BM25State.search
  have hcondeq : ((stripIdx idx).documents.isEmpty ||
      decide (jsTrim q = "")) =
      (idx.documents.isEmpty || decide (jsTrim q = "")) := by
    rw [stripIdx_documents, isEmpty_map_strip]
  by_cases hc : (idx.documents.isEmpty || decide (jsTrim q = "")) = true
  · rw [if_pos (by rw [hcondeq]; exact hc), if_pos hc]
    rfl
  · rw [if_neg (by rw [hcondeq]; exact hc), if_neg hc]
    rw [show (stripIdx idx).tokenizerOptions = idx.tokenizerOptions from rfl]
    by_cases hqe : (tokenize q idx.tokenizerOptions).isEmpty = true
    · rw [if_pos hqe, if_pos hqe]
      rfl
    · rw [if_neg hqe, if_neg hqe]
      have hscores : (stripIdx idx).documents.filterMap (fun d =>
          let score := (stripIdx idx).calculateScore d.1
            (tokenize q idx.tokenizerOptions)
          if 0 < score then some (d.1, score) else none) =
          idx.documents.filterMap (fun d =>
          let score := idx.calculateScore d.1
            (tokenize q idx.tokenizerOptions)
          if 0 < score then some (d.1, score) else none) := by
        simp only [stripIdx_score]
        rw [stripIdx_documents]
        exact filterMap_fst_map_strip idx.documents (fun i =>
          let score := idx.calculateScore i (tokenize q idx.tokenizerOptions)
          if 0 < score then some (i, score) else none)
      rw [hscores, List.map_map]
      apply List.map_congr_left
      intro p _
      rw [show mapGet (stripIdx idx).documents p.1 =
          (mapGet idx.documents p.1).map stripDoc from by
        rw [stripIdx_documents]
        exact mapGet_map_val stripDoc idx.documents p.1]
      cases mapGet idx.documents p.1 with
      | none => rfl
      | some doc => rfl

/-- C10: deserializing a serialized BM25 index drops all per-document
metadata: the rebuilt documents all have absent metadata, yet a search on the
round-tripped index returns the same ids, scores and order as on the
original — only with every result's metadata absent. -/
theorem claim_deserialize_drops_metadata (idx : BM25State) (q : String)
    (k : ℕ) (hInv : BM25Inv idx) (hTok : idx.tokenizerOptions = {}) :
    ((BM25State.deserialize idx.serialize).documents.all
      (fun d => d.2.metadata.isNone)) = true ∧
    (BM25State.deserialize idx.serialize).search q k =
      (idx.search q k).map (fun r => { r with metadata := none }) := by
  constructor
  · rw [deserialize_serialize idx hInv hTok]
    simp [stripIdx, stripDoc, List.all_eq_true]
  · exact search_deserialize_serialize idx q k hInv hTok

theorem foldl_svSet_eq (l : List StoredVector) :
    ∀ acc : List StoredVector,
      ((acc.map (fun w => w.id)) ++ (l.map (fun w => w.id))).Nodup →
      l.foldl svSet acc = acc ++ l := by
  induction l with
  | nil => intro acc _; simp
  | cons v t ih =>
    intro acc hnd
    have hdisj := (List.nodup_append.mp hnd).2.2
    have hvid : v.id ∉ acc.map (fun w => w.id) := by
      intro hmem
      exact hdisj hmem (by simp)
    have hvacc : ¬ acc.any (fun w => w.id = v.id) = true := by
      intro hany
      rw [List.any_eq_true] at hany
      obtain ⟨w, hw, hwid⟩ := hany
      exact hvid (by
        rw [List.mem_map]
        exact ⟨w, hw, by simpa using hwid⟩)
    show t.foldl svSet (svSet acc v) = acc ++ v :: t
    have hset : svSet acc v = acc ++ [v] := by
      unfold svSet
      rw [if_neg hvacc]
    rw [hset, ih (acc ++ [v]) (by
      rw [List.map_append]
      simpa [List.append_assoc] using hnd)]
    simp

/-- C4: importing an exported store yields the same record list (hence the
same vector count), the same dimensions and the same distance metric; and
when a BM25 index was configured, the imported store carries the
round-tripped index, whose search returns the same ids, in the same order,
with equal scores (metadata aside) for every fixed keyword query. -/
theorem claim_export_import_roundtrip (s : VectorDB)
    (hids : (s.vectors.map (fun w => w.id)).Nodup) :
    (VectorDB.importDB s.export).vectors = s.vectors ∧
    (VectorDB.importDB s.export).dimensions = s.dimensions ∧
    (VectorDB.importDB s.export).distance = s.distance ∧
    ∀ idx, s.bm25Index = some idx → BM25Inv idx →
      idx.tokenizerOptions = {} →
      (VectorDB.importDB s.export).bm25Index =
        some (BM25State.deserialize idx.serialize) ∧
      ∀ q k, (BM25State.deserialize idx.serialize).search q k =
        (idx.search q k).map (fun r => { r with metadata := none }) := by
  have hvec : (VectorDB.importDB s.export).vectors = s.vectors := by
    unfold VectorDB.importDB VectorDB.export VectorDB.new
    have hfold : s.vectors.foldl svSet [] = s.vectors := by
      have := foldl_svSet_eq s.vectors [] (by simpa using hids)
      simpa using this
    cases hb : s.bm25Index <;> simp [hfold]
  refine ⟨hvec, ?_, ?_, ?_⟩
  · unfold VectorDB.importDB VectorDB.export VectorDB.new
    cases hb : s.bm25Index <;> simp
  · unfold VectorDB.importDB VectorDB.export VectorDB.new
    cases hb : s.bm25Index <;> simp
  · intro idx hb hInv hTok
    constructor
    · unfold VectorDB.importDB VectorDB.export VectorDB.new
      rw [hb]
      simp
    · intro q k
      exact search_deserialize_serialize idx q k hInv hTok

/-- Witness for C4 on a concrete one-record store with a configured BM25
index. -/
theorem claim_export_import_roundtrip_witness :
    (VectorDB.importDB storeB.export).vectors = storeB.vectors ∧
    (VectorDB.importDB storeB.export).bm25Index =
      some (BM25State.deserialize idxW.serialize) := by
  have h := claim_export_import_roundtrip storeB (by decide)
  exact ⟨h.1, (h.2.2.2 idxW rfl (by decide) (by decide)).1⟩

/-- Witness for C10 on the concrete index. -/
theorem claim_deserialize_drops_metadata_witness :
    ((BM25State.deserialize idxW.serialize).documents.all
      (fun d => d.2.metadata.isNone)) = true ∧
    (BM25State.deserialize idxW.serialize).search "fox" 2 =
      (idxW.search "fox" 2).map (fun r => { r with metadata := none }) :=
  claim_deserialize_drops_metadata idxW "fox" 2 (by decide) (by decide)

end Minimemory
